import Mathlib

/-!
Verification of `src/youtube-extract.mjs` (amoga-org/summarize-yt).

The script has two operations:

* `extractTranscriptText(jsonData)` — navigates a fixed optional chain
  through a parsed YouTube transcript JSON document down to
  `initialSegments`, maps each segment through
  `segment?.transcriptSegmentRenderer?.snippet?.runs?.[0]?.text`, and
  filters out `null`/`undefined` and `""` values.  A `try`/`catch` wraps
  the body; the only `throw` inside is the "segments missing or not an
  array" check, which the catch converts to a logged message and `[]`.

* `processTranscript(inputPath, outputPath)` — resolves both paths,
  checks the input exists, reads and JSON-parses it, extracts the
  transcript lines, and when at least one line was extracted ensures the
  output directory exists and writes the lines joined by `"\n"` to the
  output path.  The whole body sits inside one `try`/`catch`; the catch
  logs the error message and returns `false`.

We embed JavaScript values reachable from `JSON.parse` as the inductive
type `Json`; the JS value `undefined` (the result of a failed optional
access) is represented as `none : Option Json`.  The filesystem touched
by `processTranscript` is a record of files, directories, and a set of
paths on which writes and directory creations fail (modelling
permission errors of `fs.writeFileSync` / `fs.mkdirSync`).  A thrown JS
exception is an `Except.error` carrying the error message; the
`try`/`catch` blocks of the source are explicit `match`es on that
`Except`.
-/

/-- A JavaScript value produced by `JSON.parse`: null, booleans, numbers,
strings, arrays and objects.  Numbers are kept as their source lexeme
(the script never does arithmetic on them; `JSON.parse` number decoding
to IEEE floats is irrelevant to every property proved here). -/
inductive Json where
  | null : Json
  | bool (b : Bool) : Json
  | num (lexeme : String) : Json
  | str (s : String) : Json
  | arr (elems : List Json) : Json
  | obj (fields : List (String × Json)) : Json

/-- JS property access `v.k` on a defined value `v` (for the property
names used by the script, none of which is a built-in like `length`):
objects yield the named field when present, every other value (and an
object without the field) yields `undefined`, i.e. `none`. -/
def jsGet (v : Json) (k : String) : Option Json :=
  match v with
  | Json.obj fields => (fields.find? (fun f => f.1 = k)).map (fun f => f.2)
  | _ => none

/-- JS index access `v[i]` on a defined value `v`: arrays yield the
element when in range, objects look up the decimal string of the index
as a key, strings yield the one-character string at that position, and
everything else yields `undefined`. -/
def jsIndex (v : Json) (i : Nat) : Option Json :=
  match v with
  | Json.arr elems => elems.get? i
  | Json.obj fields => (fields.find? (fun f => f.1 = toString i)).map (fun f => f.2)
  | Json.str s => (s.toList.get? i).map (fun c => Json.str (String.mk [c]))
  | _ => none

/-- Optional-chain property access `o?.k`: short-circuits to `undefined`
on `undefined` and on `null`. -/
def optGet (o : Option Json) (k : String) : Option Json :=
  match o with
  | none => none
  | some Json.null => none
  | some v => jsGet v k

/-- Optional-chain index access `o?.[i]`: short-circuits to `undefined`
on `undefined` and on `null`. -/
def optIndex (o : Option Json) (i : Nat) : Option Json :=
  match o with
  | none => none
  | some Json.null => none
  | some v => jsIndex v i

/-- The fixed navigation of `extractTranscriptText` (source lines 16-18):
`jsonData?.actions?.[0]?.updateEngagementPanelAction?.content?.transcriptRenderer?.content?.transcriptSearchPanelRenderer?.body?.transcriptSegmentListRenderer?.initialSegments`. -/
def navChain (jsonData : Json) : Option Json :=
  optGet (optGet (optGet (optGet (optGet (optGet (optGet (optGet
    (optIndex (optGet (some jsonData) "actions") 0)
    "updateEngagementPanelAction") "content") "transcriptRenderer") "content")
    "transcriptSearchPanelRenderer") "body") "transcriptSegmentListRenderer")
    "initialSegments"

/-- The per-segment chain of source line 25:
`segment?.transcriptSegmentRenderer?.snippet?.runs?.[0]?.text`. -/
def segRunText (segment : Json) : Option Json :=
  optGet (optIndex (optGet (optGet (optGet (some segment) "transcriptSegmentRenderer") "snippet") "runs") 0) "text"

/-- The filter of source line 26: `text != null && text !== ""`.
Loose `!= null` rejects exactly `undefined` and `null`; strict `!== ""`
rejects exactly the string `""`.  Every other value passes, whatever its
type. -/
def jsKeep (t : Option Json) : Bool :=
  match t with
  | none => false
  | some Json.null => false
  | some (Json.str s) => !(s = "")
  | some _ => true

/-- Body of the `try` block of `extractTranscriptText` (source lines
15-26).  `!segments || !Array.isArray(segments)` lets only arrays
through: `undefined`/`null` are falsy and fail `!segments`, and every
non-array defined value fails `Array.isArray`; in both cases the body
throws, which the catch below turns into the logged fallback. -/
def extractTry (jsonData : Json) : Except String (List Json) :=
  match navChain jsonData with
  | some (Json.arr segments) =>
      Except.ok (((segments.map segRunText).filter jsKeep).reduceOption)
  | _ => Except.error "No valid transcript segments found in the JSON structure"

/-- `extractTranscriptText` (source lines 14-31): the `try` body wrapped
in the catch that logs `"Error extracting transcript: " + message` and
returns `[]`.  First component: the returned array; second component:
the lines written to the error log during the call. -/
def extractTranscriptText (jsonData : Json) : List Json × List String :=
  match extractTry jsonData with
  | Except.ok lines => (lines, [])
  | Except.error msg => ([], ["Error extracting transcript: " ++ msg])

mutual

/-- Conversion applied by `Array.prototype.join` (source line 75) to each
element: `null` (and `undefined`) become the empty string, strings pass
through, booleans print as `true`/`false`, arrays join their elements
with commas, plain objects print as `[object Object]`.  Numbers are
printed as their kept lexeme (exact for the canonical integer literals
appearing in this development; JS re-canonicalisation of exotic float
lexemes is out of scope since no number ever reaches a join here). -/
def jsToString : Json → String
  | Json.null => ""
  | Json.bool b => if b then "true" else "false"
  | Json.num lexeme => lexeme
  | Json.str s => s
  | Json.arr elems => jsToStringElems elems
  | Json.obj _ => "[object Object]"

/-- `Array.prototype.join(",")`, the conversion JS applies to a nested
array. -/
def jsToStringElems : List Json → String
  | [] => ""
  | [x] => jsToString x
  | x :: xs => jsToString x ++ "," ++ jsToStringElems xs

end

/-- `transcriptLines.join("\n")` of source line 75. -/
def joinLines (lines : List Json) : String :=
  String.intercalate "\n" (lines.map jsToString)

/-! ### JSON.parse

`processTranscript` parses the input file with the platform's
`JSON.parse`.  We model it with an executable recursive-descent parser
for the JSON grammar (strings with the standard escapes, numbers kept
as lexemes, arrays, objects, `null`/`true`/`false`), returning
`Except.error` with a message on malformed input exactly where
`JSON.parse` throws a `SyntaxError`. -/

/-- JSON insignificant whitespace. -/
def isJsonWs (c : Char) : Bool :=
  c = ' ' || c = '\n' || c = '\t' || c = '\r'

def skipWs (cs : List Char) : List Char :=
  cs.dropWhile isJsonWs

/-- Value of a hexadecimal digit, for `\uXXXX` escapes. -/
def hexVal (c : Char) : Option Nat :=
  if c.isDigit then some (c.toNat - 48)
  else if 97 ≤ c.toNat ∧ c.toNat ≤ 102 then some (c.toNat - 87)
  else if 65 ≤ c.toNat ∧ c.toNat ≤ 70 then some (c.toNat - 55)
  else none

/-- Parse the body of a JSON string literal (the opening quote already
consumed), returning the decoded characters and the input following the
closing quote. -/
def parseStrChars : List Char → Except String (List Char × List Char)
  | [] => Except.error "Unterminated string in JSON"
  | c :: rest =>
    if c = '"' then Except.ok ([], rest)
    else if c = '\\' then
      match rest with
      | [] => Except.error "Unterminated string in JSON"
      | e :: rest2 =>
        if e = 'u' then
          match rest2 with
          | h1 :: h2 :: h3 :: h4 :: rest3 =>
            match hexVal h1, hexVal h2, hexVal h3, hexVal h4 with
            | some a, some b, some c2, some d =>
              match parseStrChars rest3 with
              | Except.ok (chars, rem) =>
                  Except.ok (Char.ofNat (((a * 16 + b) * 16 + c2) * 16 + d) :: chars, rem)
              | Except.error m => Except.error m
            | _, _, _, _ => Except.error "Bad Unicode escape in JSON"
          | _ => Except.error "Bad Unicode escape in JSON"
        else
          let dec : Option Char :=
            if e = '"' then some '"'
            else if e = '\\' then some '\\'
            else if e = '/' then some '/'
            else if e = 'n' then some '\n'
            else if e = 't' then some '\t'
            else if e = 'r' then some '\r'
            else if e = 'b' then some (Char.ofNat 8)
            else if e = 'f' then some (Char.ofNat 12)
            else none
          match dec with
          | none => Except.error "Bad escape in JSON"
          | some ch =>
            match parseStrChars rest2 with
            | Except.ok (chars, rem) => Except.ok (ch :: chars, rem)
            | Except.error m => Except.error m
    else
      match parseStrChars rest with
      | Except.ok (chars, rem) => Except.ok (c :: chars, rem)
      | Except.error m => Except.error m

/-- Parse a JSON number starting at the head of the input, keeping its
lexeme; enforces the JSON grammar (no leading zeros, digits required
after a decimal point and in an exponent). -/
def parseNumber (cs : List Char) : Except String (String × List Char) :=
  let signed : List Char × List Char :=
    match cs with
    | c :: rest => if c = '-' then ([c], rest) else ([], cs)
    | [] => ([], [])
  let sign := signed.1
  let cs1 := signed.2
  let intDs := cs1.takeWhile Char.isDigit
  let cs2 := cs1.dropWhile Char.isDigit
  if intDs.isEmpty then Except.error "Unexpected token in JSON" else
  if 1 < intDs.length ∧ intDs.head? = some '0' then
    Except.error "Leading zero in JSON number" else
  let fracRes : Except String (List Char × List Char) :=
    match cs2 with
    | c :: rest =>
      if c = '.' then
        let ds := rest.takeWhile Char.isDigit
        if ds.isEmpty then Except.error "Missing digits after decimal point in JSON"
        else Except.ok (c :: ds, rest.dropWhile Char.isDigit)
      else Except.ok ([], cs2)
    | [] => Except.ok ([], cs2)
  match fracRes with
  | Except.error m => Except.error m
  | Except.ok (fracCs, cs3) =>
    let expRes : Except String (List Char × List Char) :=
      match cs3 with
      | c :: rest =>
        if c = 'e' ∨ c = 'E' then
          let signedExp : List Char × List Char :=
            match rest with
            | d :: rest2 => if d = '+' ∨ d = '-' then ([d], rest2) else ([], rest)
            | [] => ([], [])
          let ds := signedExp.2.takeWhile Char.isDigit
          if ds.isEmpty then Except.error "Missing digits in JSON exponent"
          else Except.ok (c :: (signedExp.1 ++ ds), signedExp.2.dropWhile Char.isDigit)
        else Except.ok ([], cs3)
      | [] => Except.ok ([], cs3)
    match expRes with
    | Except.error m => Except.error m
    | Except.ok (expCs, cs4) =>
      Except.ok (String.mk (sign ++ intDs ++ fracCs ++ expCs), cs4)

/-- Consume an expected keyword (`null`, `true`, `false`). -/
def stripKeyword (kw : List Char) (cs : List Char) : Option (List Char) :=
  if cs.take kw.length = kw then some (cs.drop kw.length) else none

/-- The opening-brace character, `Char.ofNat 123`. -/
def lbrace : Char := Char.ofNat 123

/-- The closing-brace character, `Char.ofNat 125`. -/
def rbrace : Char := Char.ofNat 125

/-- JS object insertion semantics for a key seen EARLIER than the fields
`fs` that follow it in the source text: if the key reappears later the
later value wins while the first occurrence keeps its position. -/
def jsonObjInsert (k : String) (v : Json) (fs : List (String × Json)) : List (String × Json) :=
  match fs.find? (fun f => f.1 = k) with
  | some f => (k, f.2) :: fs.filter (fun g => g.1 != k)
  | none => (k, v) :: fs

mutual

/-- Parse one JSON value (leading whitespace allowed).  `fuel` bounds the
recursion depth; `jsonParse` supplies `2 * length + 2`, which a step
count shows is never exhausted (each two recursive calls consume at
least one input character). -/
def parseVal (fuel : Nat) (cs : List Char) : Except String (Json × List Char) :=
  match fuel with
  | 0 => Except.error "JSON value too deeply nested"
  | fuel' + 1 =>
    match skipWs cs with
    | [] => Except.error "Unexpected end of JSON input"
    | c :: rest =>
      if c = '"' then
        match parseStrChars rest with
        | Except.error m => Except.error m
        | Except.ok (chars, rem) => Except.ok (Json.str (String.mk chars), rem)
      else if c = '[' then
        let after := skipWs rest
        if after.head? = some ']' then Except.ok (Json.arr [], after.tail)
        else
          match parseArrTail fuel' after with
          | Except.error m => Except.error m
          | Except.ok (vs, rem) => Except.ok (Json.arr vs, rem)
      else if c = lbrace then
        let after := skipWs rest
        if after.head? = some rbrace then Except.ok (Json.obj [], after.tail)
        else
          match parseObjTail fuel' after with
          | Except.error m => Except.error m
          | Except.ok (fs, rem) => Except.ok (Json.obj fs, rem)
      else if c = 'n' then
        match stripKeyword ['n', 'u', 'l', 'l'] (c :: rest) with
        | some rem => Except.ok (Json.null, rem)
        | none => Except.error "Unexpected token in JSON"
      else if c = 't' then
        match stripKeyword ['t', 'r', 'u', 'e'] (c :: rest) with
        | some rem => Except.ok (Json.bool true, rem)
        | none => Except.error "Unexpected token in JSON"
      else if c = 'f' then
        match stripKeyword ['f', 'a', 'l', 's', 'e'] (c :: rest) with
        | some rem => Except.ok (Json.bool false, rem)
        | none => Except.error "Unexpected token in JSON"
      else
        match parseNumber (c :: rest) with
        | Except.error m => Except.error m
        | Except.ok (lexeme, rem) => Except.ok (Json.num lexeme, rem)

/-- Parse the elements of a non-empty JSON array, up to and including the
closing bracket. -/
def parseArrTail (fuel : Nat) (cs : List Char) : Except String (List Json × List Char) :=
  match fuel with
  | 0 => Except.error "JSON value too deeply nested"
  | fuel' + 1 =>
    match parseVal fuel' cs with
    | Except.error m => Except.error m
    | Except.ok (v, rem) =>
      match skipWs rem with
      | c :: rest =>
        if c = ',' then
          match parseArrTail fuel' rest with
          | Except.error m => Except.error m
          | Except.ok (vs, rem2) => Except.ok (v :: vs, rem2)
        else if c = ']' then Except.ok ([v], rest)
        else Except.error "Expected comma or closing bracket in JSON array"
      | [] => Except.error "Unexpected end of JSON input"

/-- Parse the fields of a non-empty JSON object, up to and including the
closing brace. -/
def parseObjTail (fuel : Nat) (cs : List Char) : Except String (List (String × Json) × List Char) :=
  match fuel with
  | 0 => Except.error "JSON value too deeply nested"
  | fuel' + 1 =>
    match skipWs cs with
    | c :: rest =>
      if c = '"' then
        match parseStrChars rest with
        | Except.error m => Except.error m
        | Except.ok (kchars, rem) =>
          match skipWs rem with
          | c2 :: rest2 =>
            if c2 = ':' then
              match parseVal fuel' rest2 with
              | Except.error m => Except.error m
              | Except.ok (v, rem2) =>
                match skipWs rem2 with
                | c3 :: rest3 =>
                  if c3 = ',' then
                    match parseObjTail fuel' rest3 with
                    | Except.error m => Except.error m
                    | Except.ok (fs, rem3) =>
                      Except.ok (jsonObjInsert (String.mk kchars) v fs, rem3)
                  else if c3 = rbrace then
                    Except.ok ([(String.mk kchars, v)], rest3)
                  else Except.error "Expected comma or closing brace in JSON object"
                | [] => Except.error "Unexpected end of JSON input"
            else Except.error "Expected colon in JSON object"
          | [] => Except.error "Unexpected end of JSON input"
      else Except.error "Expected string key in JSON object"
    | [] => Except.error "Unexpected end of JSON input"

end

/-- The model of `JSON.parse` (source line 56): parse one value and
require only whitespace after it. -/
def jsonParse (s : String) : Except String Json :=
  let cs := s.toList
  match parseVal (2 * cs.length + 2) cs with
  | Except.error m => Except.error m
  | Except.ok (v, rem) =>
    if (skipWs rem).isEmpty then Except.ok v
    else Except.error "Unexpected non-whitespace character after JSON data"

/-! ### Filesystem model

`processTranscript` touches the filesystem through `fs.existsSync`,
`fs.readFileSync`, `fs.mkdirSync` and `fs.writeFileSync`, and the path
helpers `path.resolve` and `path.dirname`.  We model the filesystem as
the files (path to contents) and directories present, plus a set
`roPaths` of paths at which directory creation and file writes fail
with a permission error — the failure mode §7 of the spec discusses. -/

structure FS where
  files : List (String × String)
  dirs : List String
  roPaths : List String
deriving DecidableEq

/-- Contents of the file at `p`, when one exists. -/
def lookupFile (fs : FS) (p : String) : Option String :=
  (fs.files.find? (fun f => f.1 = p)).map (fun f => f.2)

/-- Replace the entry for `p` (or append one): the overwriting write of
`fs.writeFileSync`. -/
def updateFiles (files : List (String × String)) (p c : String) : List (String × String) :=
  match files with
  | [] => [(p, c)]
  | (q, d) :: rest =>
    if q = p then (p, c) :: rest else (q, d) :: updateFiles rest p c

/-- `fs.existsSync` (source lines 46 and 70): true when a file or a
directory exists at the path. -/
def existsSync (fs : FS) (p : String) : Bool :=
  fs.files.any (fun f => f.1 = p) || fs.dirs.contains p

/-- `fs.readFileSync(p, "utf8")` (source line 52): yields the file's
contents, throws `EISDIR` on a directory and `ENOENT` when nothing
exists at the path. -/
def readFileSync (fs : FS) (p : String) : Except String String :=
  match lookupFile fs p with
  | some s => Except.ok s
  | none =>
    if fs.dirs.contains p then
      Except.error "EISDIR: illegal operation on a directory, read"
    else Except.error ("ENOENT: no such file or directory, open " ++ p)

/-- `fs.mkdirSync(p, { recursive: true })` (source line 71): creates the
directory, throwing a permission error on a protected path. -/
def mkdirSync (fs : FS) (p : String) : Except String FS :=
  if fs.roPaths.contains p then
    Except.error ("EACCES: permission denied, mkdir " ++ p)
  else Except.ok { fs with dirs := p :: fs.dirs }

/-- `fs.writeFileSync(p, text, "utf8")` (source line 76): overwrites the
file, throwing a permission error on a protected path. -/
def writeFileSync (fs : FS) (p : String) (c : String) : Except String FS :=
  if fs.roPaths.contains p then
    Except.error ("EACCES: permission denied, open " ++ p)
  else Except.ok { fs with files := updateFiles fs.files p c }

/-- `path.resolve(p)` (source lines 42-43) against the current working
directory: absolute paths pass through, relative ones are joined onto
`cwd` (the `.`/`..`-normalisation of exotic inputs is not exercised by
anything here). -/
def resolvePath (cwd p : String) : String :=
  if p.toList.head? = some '/' then p else cwd ++ "/" ++ p

/-- `path.dirname(p)` (source line 69): everything before the final
separator, `.` when there is none, `/` for a child of the root. -/
def dirname (p : String) : String :=
  match (p.toList.reverse.dropWhile (fun c => c ≠ '/')) with
  | [] => "."
  | ['/'] => "/"
  | '/' :: rest => String.mk rest.reverse
  | _ => "."

/-- Outcome of one `processTranscript` call: `result` is `Except.ok` of
the returned boolean, or `Except.error msg` for an exception escaping
the call (which the source's catch-all makes impossible); `fs` is the
filesystem afterwards; `logs` the console lines emitted. -/
structure ProcResult where
  result : Except String Bool
  fs : FS
  logs : List String

/-- Body of the `try` block of `processTranscript` (source lines 40-81):
resolve the paths, require the input to exist, read it, JSON-parse it,
extract the transcript lines, require at least one line, ensure the
output directory exists, and write the joined lines.  Every `throw` of
the source (and every throwing `fs` call) is an `Except.error` carrying
the message; the filesystem and log lines accumulated before the throw
are returned alongside it. -/
def processTranscriptTry (cwd : String) (fs : FS) (inputPath outputPath : String) :
    Except String Bool × FS × List String :=
  let resolvedInputPath := resolvePath cwd inputPath
  let resolvedOutputPath := resolvePath cwd outputPath
  if !(existsSync fs resolvedInputPath) then
    (Except.error ("Input file not found: " ++ resolvedInputPath), fs, [])
  else
    let logs0 := ["Reading file: " ++ resolvedInputPath]
    match readFileSync fs resolvedInputPath with
    | Except.error m => (Except.error m, fs, logs0)
    | Except.ok fileContent =>
      match jsonParse fileContent with
      | Except.error pm => (Except.error ("Failed to parse JSON: " ++ pm), fs, logs0)
      | Except.ok jsonData =>
        let ex := extractTranscriptText jsonData
        let transcriptLines := ex.1
        let logs1 := logs0 ++ ex.2
        if transcriptLines.length = 0 then
          (Except.error "No transcript lines were extracted", fs, logs1)
        else
          let outputDir := dirname resolvedOutputPath
          let afterMkdir : Except String FS :=
            if existsSync fs outputDir then Except.ok fs else mkdirSync fs outputDir
          match afterMkdir with
          | Except.error m => (Except.error m, fs, logs1)
          | Except.ok fs1 =>
            let transcriptText := joinLines transcriptLines
            match writeFileSync fs1 resolvedOutputPath transcriptText with
            | Except.error m => (Except.error m, fs1, logs1)
            | Except.ok fs2 =>
              (Except.ok true, fs2,
                logs1 ++ ["Successfully extracted " ++ toString transcriptLines.length ++ " lines",
                          "Transcript saved to: " ++ resolvedOutputPath])

/-- `processTranscript` (source lines 39-86): the `try` body wrapped in
the catch-all of lines 82-85, which logs
`"Error processing transcript: " + message` and returns `false`. -/
def processTranscript (cwd : String) (fs : FS) (inputPath outputPath : String) : ProcResult :=
  match processTranscriptTry cwd fs inputPath outputPath with
  | (Except.ok b, fs2, logs) => ⟨Except.ok b, fs2, logs⟩
  | (Except.error msg, fs2, logs) =>
      ⟨Except.ok false, fs2, logs ++ ["Error processing transcript: " ++ msg]⟩

/-! ### Concrete fixtures -/

/-- A segment record of the expected shape with the given `text` value. -/
def mkSeg (t : Json) : Json :=
  Json.obj [("transcriptSegmentRenderer",
    Json.obj [("snippet",
      Json.obj [("runs", Json.arr [Json.obj [("text", t)]])])])]

/-- A document wrapping `segments` in the full nested envelope that
`navChain` traverses. -/
def mkDoc (segments : Json) : Json :=
  let l9 := Json.obj [("initialSegments", segments)]
  let l8 := Json.obj [("transcriptSegmentListRenderer", l9)]
  let l7 := Json.obj [("body", l8)]
  let l6 := Json.obj [("transcriptSearchPanelRenderer", l7)]
  let l5 := Json.obj [("content", l6)]
  let l4 := Json.obj [("transcriptRenderer", l5)]
  let l3 := Json.obj [("content", l4)]
  let l2 := Json.obj [("updateEngagementPanelAction", l3)]
  Json.obj [("actions", Json.arr [l2])]

/-- The happy-path document: segments `Hello`, `world`. -/
def exDocHello : Json :=
  mkDoc (Json.arr [mkSeg (Json.str "Hello"), mkSeg (Json.str "world")])

/-- The mixed-segments document of testable property 3:
`[{text:"A"}, {}, {text:""}, {text:"B"}]`. -/
def exDocMixed : Json :=
  mkDoc (Json.arr [mkSeg (Json.str "A"), Json.obj [], mkSeg (Json.str ""), mkSeg (Json.str "B")])

/-- JSON text of one segment with the given already-quoted text token. -/
def segText (quoted : String) : String :=
  "\x7b\"transcriptSegmentRenderer\":\x7b\"snippet\":\x7b\"runs\":[\x7b\"text\":" ++
    quoted ++ "\x7d]\x7d\x7d\x7d"

/-- JSON text of a whole envelope document around the given segment texts. -/
def docText (segs : List String) : String :=
  "\x7b\"actions\":[\x7b\"updateEngagementPanelAction\":\x7b\"content\":" ++
  "\x7b\"transcriptRenderer\":\x7b\"content\":\x7b\"transcriptSearchPanelRenderer\":" ++
  "\x7b\"body\":\x7b\"transcriptSegmentListRenderer\":\x7b\"initialSegments\":[" ++
  String.intercalate "," segs ++
  "]\x7d\x7d\x7d\x7d\x7d\x7d\x7d\x7d]\x7d"

/-- The happy-path input file contents. -/
def exInputHello : String :=
  docText [segText "\"Hello\"", segText "\"world\""]


/-- Document whose `text` values are a number and a boolean: non-string
values that still pass the `text != null && text !== ""` filter. -/
def exDocNum : Json :=
  mkDoc (Json.arr [mkSeg (Json.num "42"), mkSeg (Json.bool true)])

/-- Happy-path filesystem: the input file holds `exInputHello`, the
output directory `/out` already exists, nothing is write-protected. -/
def fsHappy : FS :=
  ⟨[("/work/in.json", exInputHello)], ["/work", "/out"], []⟩

/-- Empty filesystem: the input file is missing. -/
def fsMissing : FS := ⟨[], [], []⟩

/-- Filesystem whose input file is not valid JSON (testable property 4). -/
def fsBadJson : FS :=
  ⟨[("/work/in.json", "\x7bnot valid json")], ["/work"], []⟩

/-- Filesystem whose input file is the JSON document with no
`initialSegments` at all (testable property 2). -/
def fsNoSegs : FS :=
  ⟨[("/work/in.json", "\x7b\x7d")], ["/work"], []⟩

/-- Happy-path filesystem except that the output path itself is
write-protected: `fs.writeFileSync` throws `EACCES` on it. -/
def fsRO : FS :=
  ⟨[("/work/in.json", exInputHello)], ["/work", "/out"], ["/out/t.txt"]⟩

/-! ### Extraction: spec-side restatements -/

/-- THE SPEC'S WORDS (§4.1): the value a segment contributes — the
result of the chain `transcriptSegmentRenderer.snippet.runs[0].text`
when it resolves to a non-null, non-empty value, and nothing otherwise. -/
def specKeptValue (s : Json) : Option Json :=
  match segRunText s with
  | none => none
  | some Json.null => none
  | some (Json.str t) => if t = "" then none else some (Json.str t)
  | some v => some v

/-- THE SPEC'S WORDS (§3, §8.7): a segment is valid when its chain
resolves to a non-null, non-empty value. -/
def isValidSeg (s : Json) : Bool :=
  (specKeptValue s).isSome

/-- The text a valid segment contributes. -/
def validSegValue (s : Json) : Json :=
  (specKeptValue s).getD Json.null

/-- The source's map-then-filter over the segments equals a single
`filterMap` by the spec-side per-segment function. -/
lemma kept_eq_filterMap (segs : List Json) :
    ((segs.map segRunText).filter jsKeep).reduceOption = segs.filterMap specKeptValue := by
  induction segs with
  | nil => rfl
  | cons s rest ih =>
    simp only [List.map_cons, List.filter_cons, List.filterMap_cons]
    rcases h : segRunText s with _ | v
    · simp [jsKeep, specKeptValue, h, ih]
    · have ih' : List.filterMap id ((rest.map segRunText).filter jsKeep) =
          List.filterMap specKeptValue rest := by
        simpa [List.reduceOption] using ih
      cases v with
      | str t =>
        by_cases ht : t = "" <;>
          simp [jsKeep, specKeptValue, h, ht, ih, ih', List.reduceOption]
      | null => simp [jsKeep, specKeptValue, h, ih]
      | bool b => simp [jsKeep, specKeptValue, h, ih', List.reduceOption]
      | num lx => simp [jsKeep, specKeptValue, h, ih', List.reduceOption]
      | arr es => simp [jsKeep, specKeptValue, h, ih', List.reduceOption]
      | obj fs => simp [jsKeep, specKeptValue, h, ih', List.reduceOption]

/-- Evaluation of `extractTranscriptText` when the navigation finds the
segment array: the kept values, and nothing logged. -/
lemma extract_of_nav (doc : Json) (segs : List Json)
    (h : navChain doc = some (Json.arr segs)) :
    extractTranscriptText doc = (segs.filterMap specKeptValue, []) := by
  unfold extractTranscriptText extractTry
  rw [h]
  simp [kept_eq_filterMap]

/-- Evaluation of `extractTranscriptText` when the navigation does not
find an array: the empty result and the logged diagnostic. -/
lemma extract_of_no_nav (doc : Json)
    (h : ∀ segs : List Json, navChain doc ≠ some (Json.arr segs)) :
    extractTranscriptText doc =
      ([], ["Error extracting transcript: No valid transcript segments found in the JSON structure"]) := by
  unfold extractTranscriptText extractTry
  rcases hn : navChain doc with _ | v
  · rfl
  · cases v with
    | arr segs => exact absurd hn (h segs)
    | null => rfl
    | bool b => rfl
    | num lx => rfl
    | str s => rfl
    | obj fs => rfl

lemma filterMap_eq_filter_map (segs : List Json) :
    segs.filterMap specKeptValue = (segs.filter isValidSeg).map validSegValue := by
  induction segs with
  | nil => rfl
  | cons s rest ih =>
    simp only [List.filterMap_cons, List.filter_cons]
    rcases h : specKeptValue s with _ | v
    · simp [isValidSeg, h, ih]
    · simp [isValidSeg, validSegValue, h, ih]

/-- When the per-segment chain resolves to a non-null, non-empty value,
the spec-side per-segment function keeps exactly that value. -/
lemma specKeptValue_of_run (s : Json) (v : Json) (h : segRunText s = some v)
    (hnull : v ≠ Json.null) (hempty : v ≠ Json.str "") : specKeptValue s = some v := by
  unfold specKeptValue
  rw [h]
  cases v with
  | null => exact absurd rfl hnull
  | str t =>
    have ht : t ≠ "" := fun e => hempty (by rw [e])
    simp [ht]
  | bool b => rfl
  | num lx => rfl
  | arr es => rfl
  | obj fs => rfl

set_option maxRecDepth 400000 in
/-- C1: for the JSON document matching the expected nested envelope with
segments `Hello` and `world`, `extractTranscriptText` returns
`["Hello", "world"]`, and `processTranscript` writes an output file
whose content is exactly `"Hello\nworld"` (single newline between the
lines, no trailing newline) and returns `true`. -/
theorem extract_and_process_happy_path :
    (extractTranscriptText exDocHello).1 = [Json.str "Hello", Json.str "world"]
    ∧ (processTranscript "/work" fsHappy "in.json" "/out/t.txt").result = Except.ok true
    ∧ lookupFile (processTranscript "/work" fsHappy "in.json" "/out/t.txt").fs "/out/t.txt"
        = some "Hello\nworld" :=
  ⟨by rfl, by rfl, by rfl⟩

/-- C2: whenever the navigation finds the segment list,
`extractTranscriptText` keeps exactly the segments whose chain
`transcriptSegmentRenderer.snippet.runs[0].text` resolves to a
non-null, non-empty value (the spec-side `specKeptValue`) and drops the
rest; in particular the mixed list
`[{text:"A"}, {}, {text:""}, {text:"B"}]` yields exactly `["A", "B"]`. -/
theorem extract_keeps_exactly_resolving_segments :
    (∀ (doc : Json) (segs : List Json), navChain doc = some (Json.arr segs) →
        (extractTranscriptText doc).1 = segs.filterMap specKeptValue)
    ∧ (extractTranscriptText exDocMixed).1 = [Json.str "A", Json.str "B"] :=
  ⟨fun doc segs h => by rw [extract_of_nav doc segs h], by rfl⟩

/-- Witness for C2 at the mixed document. -/
theorem extract_keeps_exactly_resolving_segments_witness :
    (extractTranscriptText exDocMixed).1 =
      [mkSeg (Json.str "A"), Json.obj [], mkSeg (Json.str ""),
        mkSeg (Json.str "B")].filterMap specKeptValue :=
  extract_keeps_exactly_resolving_segments.1 exDocMixed _ (by rfl)

/-- C3: for every document whose segment list is found, the extracted
sequence is the valid segments' texts in their original relative order
— a `filter` of the segment list followed by a `map`, so no reordering,
deduplication or sorting can occur however many invalid segments are
interspersed. -/
theorem extract_preserves_segment_order :
    ∀ (doc : Json) (segs : List Json), navChain doc = some (Json.arr segs) →
      (extractTranscriptText doc).1 = (segs.filter isValidSeg).map validSegValue :=
  fun doc segs h => by rw [extract_of_nav doc segs h, filterMap_eq_filter_map]

/-- Witness for C3 at the mixed document. -/
theorem extract_preserves_segment_order_witness :
    (extractTranscriptText exDocMixed).1 =
      ([mkSeg (Json.str "A"), Json.obj [], mkSeg (Json.str ""),
        mkSeg (Json.str "B")].filter isValidSeg).map validSegValue :=
  extract_preserves_segment_order exDocMixed _ (by rfl)

/-- C4: `extractTranscriptText` is total on arbitrary JSON values and
never propagates an error: every document either hits the one uniform
fallback (empty result, one logged diagnostic — the same for every kind
of structural mismatch, with no cause distinguished) or resolves to a
segment array and yields the filtered (possibly partial) result. -/
theorem extract_total_uniform_fallback :
    ∀ doc : Json,
      extractTranscriptText doc =
        ([], ["Error extracting transcript: No valid transcript segments found in the JSON structure"])
      ∨ ∃ segs : List Json, navChain doc = some (Json.arr segs) ∧
          extractTranscriptText doc = (segs.filterMap specKeptValue, []) := by
  intro doc
  rcases hn : navChain doc with _ | v
  · exact Or.inl (extract_of_no_nav doc (fun segs => by simp [hn]))
  · cases v with
    | arr segs => exact Or.inr ⟨segs, rfl, extract_of_nav doc segs hn⟩
    | null => exact Or.inl (extract_of_no_nav doc (fun segs => by simp [hn]))
    | bool b => exact Or.inl (extract_of_no_nav doc (fun segs => by simp [hn]))
    | num lx => exact Or.inl (extract_of_no_nav doc (fun segs => by simp [hn]))
    | str s => exact Or.inl (extract_of_no_nav doc (fun segs => by simp [hn]))
    | obj fs => exact Or.inl (extract_of_no_nav doc (fun segs => by simp [hn]))

/-- C9: the filter rejects only null/undefined and the empty string, so
any segment whose chain resolves to a non-null value that is not `""`
contributes that value to the result even when it is not a string; in
particular a number and a boolean text value both come through. -/
theorem extract_keeps_non_string_values :
    (∀ (doc : Json) (segs : List Json) (s v : Json),
        navChain doc = some (Json.arr segs) → s ∈ segs → segRunText s = some v →
        v ≠ Json.null → v ≠ Json.str "" → v ∈ (extractTranscriptText doc).1)
    ∧ (extractTranscriptText exDocNum).1 = [Json.num "42", Json.bool true] := by
  constructor
  · intro doc segs s v hnav hs hrun hnull hempty
    rw [extract_of_nav doc segs hnav]
    exact List.mem_filterMap.mpr ⟨s, hs, specKeptValue_of_run s v hrun hnull hempty⟩
  · rfl

/-- Witness for C9: the number-valued text is in the extracted result. -/
theorem extract_keeps_non_string_values_witness :
    Json.num "42" ∈ (extractTranscriptText exDocNum).1 :=
  extract_keeps_non_string_values.1 exDocNum
    [mkSeg (Json.num "42"), mkSeg (Json.bool true)] (mkSeg (Json.num "42")) (Json.num "42")
    (by rfl) (List.mem_cons_self _ _) (by rfl)
    (fun h => Json.noConfusion h) (fun h => Json.noConfusion h)

/-! ### Filesystem lemmas -/

lemma readFileSync_ok_iff (fs : FS) (p : String) (s : String) :
    readFileSync fs p = Except.ok s ↔ lookupFile fs p = some s := by
  unfold readFileSync
  cases h : lookupFile fs p with
  | none =>
    show (if fs.dirs.contains p = true then
        Except.error "EISDIR: illegal operation on a directory, read"
      else Except.error ("ENOENT: no such file or directory, open " ++ p))
        = Except.ok s ↔ none = some s
    split <;> simp
  | some t => simp

lemma lookupFile_isSome_exists (fs : FS) (p : String) (s : String)
    (h : lookupFile fs p = some s) : existsSync fs p = true := by
  unfold lookupFile at h
  rcases hf : fs.files.find? (fun f => f.1 = p) with _ | f
  · rw [hf] at h; exact Option.noConfusion h
  · have hmem := List.mem_of_find?_eq_some hf
    have hp := List.find?_some hf
    simp only [existsSync, Bool.or_eq_true, List.any_eq_true]
    exact Or.inl ⟨f, hmem, hp⟩

lemma mkdirSync_ok {fs : FS} {p : String} {fs' : FS}
    (h : mkdirSync fs p = Except.ok fs') :
    fs' = { fs with dirs := p :: fs.dirs } ∧ fs.roPaths.contains p = false := by
  unfold mkdirSync at h
  split at h
  · exact Except.noConfusion h
  · next hro =>
    injection h with h1
    exact ⟨h1.symm, by simpa using hro⟩

lemma writeFileSync_ok {fs : FS} {p c : String} {fs' : FS}
    (h : writeFileSync fs p c = Except.ok fs') :
    fs' = { fs with files := updateFiles fs.files p c } ∧ fs.roPaths.contains p = false := by
  unfold writeFileSync at h
  split at h
  · exact Except.noConfusion h
  · next hro =>
    injection h with h1
    exact ⟨h1.symm, by simpa using hro⟩

lemma find?_updateFiles_self (l : List (String × String)) (p c : String) :
    (updateFiles l p c).find? (fun f => f.1 = p) = some (p, c) := by
  induction l with
  | nil => simp [updateFiles]
  | cons a rest ih =>
    rcases a with ⟨q, d⟩
    by_cases hq : q = p
    · simp [updateFiles, hq]
    · simp [updateFiles, hq, ih]

lemma lookupFile_write_self (fs : FS) (p c : String) :
    lookupFile { fs with files := updateFiles fs.files p c } p = some c := by
  simp [lookupFile, find?_updateFiles_self]

lemma any_updateFiles {l : List (String × String)} {p c q : String}
    (h : l.any (fun f => f.1 = q) = true) :
    (updateFiles l p c).any (fun f => f.1 = q) = true := by
  induction l with
  | nil => simp at h
  | cons a rest ih =>
    rcases a with ⟨r, d⟩
    simp only [List.any_cons, Bool.or_eq_true] at h
    by_cases hr : r = p
    · subst hr
      simpa [updateFiles] using h
    · simp only [updateFiles, if_neg hr, List.any_cons, Bool.or_eq_true]
      rcases h with h | h
      · exact Or.inl h
      · exact Or.inr (ih h)

lemma existsSync_write_mono {fs : FS} {p c q : String}
    (h : existsSync fs q = true) :
    existsSync { fs with files := updateFiles fs.files p c } q = true := by
  simp only [existsSync, Bool.or_eq_true] at h ⊢
  rcases h with h | h
  · exact Or.inl (any_updateFiles h)
  · exact Or.inr h

lemma existsSync_mkdir_mono {fs : FS} {p q : String}
    (h : existsSync fs q = true) :
    existsSync { fs with dirs := p :: fs.dirs } q = true := by
  simp only [existsSync, Bool.or_eq_true] at h ⊢
  rcases h with h | h
  · exact Or.inl h
  · refine Or.inr ?_
    have hq : q ∈ fs.dirs := by simpa using h
    simp [hq]

lemma existsSync_mkdir_self (fs : FS) (p : String) :
    existsSync { fs with dirs := p :: fs.dirs } p = true := by
  simp [existsSync, List.contains_cons]

/-- The `try` body only returns `Except.ok` with the value `true`: every
early exit is a throw. -/
lemma processTranscriptTry_ok_true {cwd : String} {fs : FS} {inp out : String}
    {b : Bool} {fs' : FS} {logs : List String}
    (h : processTranscriptTry cwd fs inp out = (Except.ok b, fs', logs)) : b = true := by
  cases hex : existsSync fs (resolvePath cwd inp) with
  | false => simp [processTranscriptTry, hex] at h
  | true =>
    cases hread : readFileSync fs (resolvePath cwd inp) with
    | error m => simp [processTranscriptTry, hex, hread] at h
    | ok content =>
      cases hparse : jsonParse content with
      | error m => simp [processTranscriptTry, hex, hread, hparse] at h
      | ok doc =>
        by_cases hlen : (extractTranscriptText doc).1.length = 0
        · simp [processTranscriptTry, hex, hread, hparse, hlen] at h
        · cases hmk : (if existsSync fs (dirname (resolvePath cwd out)) then Except.ok fs
              else mkdirSync fs (dirname (resolvePath cwd out))) with
          | error m => simp [processTranscriptTry, hex, hread, hparse, hlen, hmk] at h
          | ok fs1 =>
            cases hwrite : writeFileSync fs1 (resolvePath cwd out)
                (joinLines (extractTranscriptText doc).1) with
            | error m =>
              simp [processTranscriptTry, hex, hread, hparse, hlen, hmk, hwrite] at h
            | ok fs2 =>
              simp [processTranscriptTry, hex, hread, hparse, hlen, hmk, hwrite] at h
              exact h.1

/-- C5: for every pair of paths and every filesystem, `processTranscript`
returns an `Except.ok` boolean — no raised error escapes the operation —
and whenever the returned boolean is `false` a diagnostic was logged. -/
theorem process_returns_boolean_never_throws :
    ∀ (cwd : String) (fs : FS) (inp out : String),
      (∃ b : Bool, (processTranscript cwd fs inp out).result = Except.ok b)
      ∧ ((processTranscript cwd fs inp out).result = Except.ok false →
          (processTranscript cwd fs inp out).logs ≠ []) := by
  intro cwd fs inp out
  rcases ht : processTranscriptTry cwd fs inp out with ⟨r, fs2, logs⟩
  cases r with
  | ok b =>
    have hb : b = true := processTranscriptTry_ok_true ht
    subst hb
    constructor
    · exact ⟨true, by simp [processTranscript, ht]⟩
    · intro hfalse
      have : (processTranscript cwd fs inp out).result = Except.ok true := by
        simp [processTranscript, ht]
      rw [this] at hfalse
      exact absurd (Except.ok.inj hfalse) (by simp)
  | error m =>
    constructor
    · exact ⟨false, by simp [processTranscript, ht]⟩
    · intro _
      have : (processTranscript cwd fs inp out).logs =
          logs ++ ["Error processing transcript: " ++ m] := by
        simp [processTranscript, ht]
      rw [this]
      simp

/-- Witness for C5 at a filesystem whose input JSON has no segments:
the run fails and a diagnostic is logged. -/
theorem process_returns_boolean_never_throws_witness :
    (processTranscript "/work" fsNoSegs "in.json" "/out/t.txt").logs ≠ [] :=
  (process_returns_boolean_never_throws "/work" fsNoSegs "in.json" "/out/t.txt").2 (by rfl)

set_option maxRecDepth 400000 in
/-- C6 counterexample: with the output path write-protected, the final
write inside `processTranscript` throws (`EACCES`), yet the call does
NOT propagate a raised fault: the catch-all of source lines 82-85
converts it into an ordinary `false` return.  The claim that such a
failure escapes uncaught is false on this input. -/
theorem process_write_failure_not_raised_counterexample :
    (processTranscriptTry "/work" fsRO "in.json" "/out/t.txt").1
      = Except.error "EACCES: permission denied, open /out/t.txt"
    ∧ (processTranscript "/work" fsRO "in.json" "/out/t.txt").result = Except.ok false :=
  ⟨by rfl, by rfl⟩

/-- C6 amended: when directory creation or the final file write throws
inside the `try` body, the failure IS caught by `processTranscript`'s
catch-all (as is every other throw) and converted into a `false` return
with the error message logged; nothing propagates to the caller. -/
theorem process_write_failure_caught :
    ∀ (cwd : String) (fs : FS) (inp out msg : String) (fs2 : FS) (logs : List String),
      processTranscriptTry cwd fs inp out = (Except.error msg, fs2, logs) →
      processTranscript cwd fs inp out =
        ⟨Except.ok false, fs2, logs ++ ["Error processing transcript: " ++ msg]⟩ := by
  intro cwd fs inp out msg fs2 logs h
  simp [processTranscript, h]

set_option maxRecDepth 400000 in
/-- Witness for the amended C6 at the write-protected filesystem. -/
theorem process_write_failure_caught_witness :
    processTranscript "/work" fsRO "in.json" "/out/t.txt" =
      ⟨Except.ok false, fsRO,
        ["Reading file: /work/in.json",
          "Error processing transcript: EACCES: permission denied, open /out/t.txt"]⟩ :=
  process_write_failure_caught "/work" fsRO "in.json" "/out/t.txt"
    "EACCES: permission denied, open /out/t.txt" fsRO
    ["Reading file: /work/in.json"] (by rfl)

/-- The three failure causes of C7/C10: input path does not exist, input
content is not parseable as JSON, or extraction yields zero lines. -/
def failCause (cwd : String) (fs : FS) (inputPath : String) : Prop :=
  existsSync fs (resolvePath cwd inputPath) = false
  ∨ (∃ s e, readFileSync fs (resolvePath cwd inputPath) = Except.ok s
      ∧ jsonParse s = Except.error e)
  ∨ (∃ s doc, readFileSync fs (resolvePath cwd inputPath) = Except.ok s
      ∧ jsonParse s = Except.ok doc ∧ (extractTranscriptText doc).1 = [])

/-- C7: on every failing cause — missing input, malformed JSON, zero
extracted lines — `processTranscript` returns `false` and performs no
write: the files on disk are exactly those before the call. -/
theorem process_failure_no_write :
    ∀ (cwd : String) (fs : FS) (inp out : String), failCause cwd fs inp →
      (processTranscript cwd fs inp out).result = Except.ok false
      ∧ (processTranscript cwd fs inp out).fs.files = fs.files := by
  intro cwd fs inp out hc
  rcases hc with hex | ⟨s, e, hread, hparse⟩ | ⟨s, doc, hread, hparse, hlines⟩
  · constructor <;> simp [processTranscript, processTranscriptTry, hex]
  · have hex : existsSync fs (resolvePath cwd inp) = true :=
      lookupFile_isSome_exists fs _ s ((readFileSync_ok_iff fs _ s).mp hread)
    constructor <;> simp [processTranscript, processTranscriptTry, hex, hread, hparse]
  · have hex : existsSync fs (resolvePath cwd inp) = true :=
      lookupFile_isSome_exists fs _ s ((readFileSync_ok_iff fs _ s).mp hread)
    constructor <;>
      simp [processTranscript, processTranscriptTry, hex, hread, hparse, hlines]

/-- Witness for C7: missing input file. -/
theorem process_failure_no_write_witness :
    (processTranscript "/work" fsMissing "in.json" "/out/t.txt").result = Except.ok false
    ∧ (processTranscript "/work" fsMissing "in.json" "/out/t.txt").fs.files
        = fsMissing.files :=
  process_failure_no_write "/work" fsMissing "in.json" "/out/t.txt" (Or.inl (by rfl))

/-- C10: on the three failing causes the whole filesystem — directories
included — is left exactly as it was: directory creation is only
reached after extraction produced at least one line. -/
theorem process_failure_leaves_fs_unchanged :
    ∀ (cwd : String) (fs : FS) (inp out : String), failCause cwd fs inp →
      (processTranscript cwd fs inp out).fs = fs := by
  intro cwd fs inp out hc
  rcases hc with hex | ⟨s, e, hread, hparse⟩ | ⟨s, doc, hread, hparse, hlines⟩
  · simp [processTranscript, processTranscriptTry, hex]
  · have hex : existsSync fs (resolvePath cwd inp) = true :=
      lookupFile_isSome_exists fs _ s ((readFileSync_ok_iff fs _ s).mp hread)
    simp [processTranscript, processTranscriptTry, hex, hread, hparse]
  · have hex : existsSync fs (resolvePath cwd inp) = true :=
      lookupFile_isSome_exists fs _ s ((readFileSync_ok_iff fs _ s).mp hread)
    simp [processTranscript, processTranscriptTry, hex, hread, hparse, hlines]

/-- Witness for C10: malformed JSON input leaves the filesystem
untouched. -/
theorem process_failure_leaves_fs_unchanged_witness :
    (processTranscript "/work" fsBadJson "in.json" "/out/t.txt").fs = fsBadJson :=
  process_failure_leaves_fs_unchanged "/work" fsBadJson "in.json" "/out/t.txt"
    (Or.inr (Or.inl ⟨"\x7bnot valid json", "Expected string key in JSON object",
      by rfl, by rfl⟩))

/-- C8: when a `processTranscript` run succeeds and the input file's
content is unchanged afterwards (identical input for the second run),
running again with the same output path succeeds too and leaves the
output file with byte-identical content: the written text is a
deterministic function of the input content, and the second run
overwrites the first run's file with the same bytes. -/
theorem process_rerun_identical_output :
    ∀ (cwd : String) (fs : FS) (inp out : String),
      (processTranscript cwd fs inp out).result = Except.ok true →
      lookupFile (processTranscript cwd fs inp out).fs (resolvePath cwd inp)
        = lookupFile fs (resolvePath cwd inp) →
      (processTranscript cwd (processTranscript cwd fs inp out).fs inp out).result
          = Except.ok true
      ∧ lookupFile (processTranscript cwd (processTranscript cwd fs inp out).fs inp out).fs
            (resolvePath cwd out)
        = lookupFile (processTranscript cwd fs inp out).fs (resolvePath cwd out) := by
  intro cwd fs inp out h1 h2
  cases hex : existsSync fs (resolvePath cwd inp) with
  | false =>
    exfalso
    have hr : (processTranscript cwd fs inp out).result = Except.ok false := by
      simp [processTranscript, processTranscriptTry, hex]
    rw [hr] at h1
    simp at h1
  | true =>
    cases hread : readFileSync fs (resolvePath cwd inp) with
    | error m =>
      exfalso
      have hr : (processTranscript cwd fs inp out).result = Except.ok false := by
        simp [processTranscript, processTranscriptTry, hex, hread]
      rw [hr] at h1
      simp at h1
    | ok content =>
      cases hparse : jsonParse content with
      | error m =>
        exfalso
        have hr : (processTranscript cwd fs inp out).result = Except.ok false := by
          simp [processTranscript, processTranscriptTry, hex, hread, hparse]
        rw [hr] at h1
        simp at h1
      | ok doc =>
        by_cases hlen : (extractTranscriptText doc).1.length = 0
        · exfalso
          have hr : (processTranscript cwd fs inp out).result = Except.ok false := by
            simp [processTranscript, processTranscriptTry, hex, hread, hparse, hlen]
          rw [hr] at h1
          simp at h1
        · cases hmk : (if existsSync fs (dirname (resolvePath cwd out)) then Except.ok fs
              else mkdirSync fs (dirname (resolvePath cwd out))) with
          | error m =>
            exfalso
            have hr : (processTranscript cwd fs inp out).result = Except.ok false := by
              simp [processTranscript, processTranscriptTry, hex, hread, hparse, hlen, hmk]
            rw [hr] at h1
            simp at h1
          | ok fs1 =>
            cases hwrite : writeFileSync fs1 (resolvePath cwd out)
                (joinLines (extractTranscriptText doc).1) with
            | error m =>
              exfalso
              have hr : (processTranscript cwd fs inp out).result = Except.ok false := by
                simp [processTranscript, processTranscriptTry, hex, hread, hparse, hlen,
                  hmk, hwrite]
              rw [hr] at h1
              simp at h1
            | ok fs2 =>
              have hfs1 : (processTranscript cwd fs inp out).fs = fs2 := by
                simp [processTranscript, processTranscriptTry, hex, hread, hparse, hlen,
                  hmk, hwrite]
              obtain ⟨hfs2eq, hroOut⟩ := writeFileSync_ok hwrite
              have hfs1cases :
                  (fs1 = fs ∧ existsSync fs (dirname (resolvePath cwd out)) = true)
                  ∨ fs1 = { fs with dirs := dirname (resolvePath cwd out) :: fs.dirs } := by
                by_cases hdir : existsSync fs (dirname (resolvePath cwd out)) = true
                · rw [if_pos hdir] at hmk
                  exact Or.inl ⟨(Except.ok.inj hmk).symm, hdir⟩
                · rw [if_neg hdir] at hmk
                  exact Or.inr (mkdirSync_ok hmk).1
              have hro1 : fs1.roPaths = fs.roPaths := by
                rcases hfs1cases with ⟨hE, _⟩ | hE <;> rw [hE]
              have hdir1 : existsSync fs1 (dirname (resolvePath cwd out)) = true := by
                rcases hfs1cases with ⟨hE, hdir⟩ | hE
                · rw [hE]; exact hdir
                · rw [hE]; exact existsSync_mkdir_self fs _
              have hdir2 : existsSync fs2 (dirname (resolvePath cwd out)) = true := by
                rw [hfs2eq]; exact existsSync_write_mono hdir1
              have hro2 : fs2.roPaths = fs.roPaths := by
                rw [hfs2eq]; exact hro1
              have hlook1 : lookupFile fs (resolvePath cwd inp) = some content :=
                (readFileSync_ok_iff fs _ content).mp hread
              rw [hfs1] at h2
              have hlook2 : lookupFile fs2 (resolvePath cwd inp) = some content := by
                rw [h2, hlook1]
              have hread2 : readFileSync fs2 (resolvePath cwd inp) = Except.ok content :=
                (readFileSync_ok_iff fs2 _ content).mpr hlook2
              have hex2 : existsSync fs2 (resolvePath cwd inp) = true :=
                lookupFile_isSome_exists fs2 _ content hlook2
              have hmk2 : (if existsSync fs2 (dirname (resolvePath cwd out)) then Except.ok fs2
                  else mkdirSync fs2 (dirname (resolvePath cwd out))) = Except.ok fs2 := by
                rw [if_pos hdir2]
              have hroOut2 : fs2.roPaths.contains (resolvePath cwd out) = false := by
                rw [hro2, ← hro1]; exact hroOut
              have hwrite2 : writeFileSync fs2 (resolvePath cwd out)
                  (joinLines (extractTranscriptText doc).1)
                  = Except.ok (⟨updateFiles fs2.files (resolvePath cwd out)
                      (joinLines (extractTranscriptText doc).1), fs2.dirs, fs2.roPaths⟩ : FS) := by
                have hnotin : resolvePath cwd out ∉ fs2.roPaths := by simpa using hroOut2
                simp [writeFileSync, hnotin]
              rw [hfs1]
              constructor
              · simp [processTranscript, processTranscriptTry, hex2, hread2, hparse, hlen,
                  hmk2, hwrite2]
              · have hfsr2 : (processTranscript cwd fs2 inp out).fs =
                    (⟨updateFiles fs2.files (resolvePath cwd out)
                      (joinLines (extractTranscriptText doc).1), fs2.dirs, fs2.roPaths⟩ : FS) := by
                  simp [processTranscript, processTranscriptTry, hex2, hread2, hparse, hlen,
                    hmk2, hwrite2]
                rw [hfsr2, lookupFile_write_self, hfs2eq, lookupFile_write_self]

set_option maxRecDepth 400000 in
/-- Witness for C8: rerunning on the happy-path filesystem rewrites the
same output bytes. -/
theorem process_rerun_identical_output_witness :
    (processTranscript "/work" (processTranscript "/work" fsHappy "in.json" "/out/t.txt").fs
        "in.json" "/out/t.txt").result = Except.ok true
    ∧ lookupFile (processTranscript "/work"
          (processTranscript "/work" fsHappy "in.json" "/out/t.txt").fs
          "in.json" "/out/t.txt").fs (resolvePath "/work" "/out/t.txt")
      = lookupFile (processTranscript "/work" fsHappy "in.json" "/out/t.txt").fs
          (resolvePath "/work" "/out/t.txt") :=
  process_rerun_identical_output "/work" fsHappy "in.json" "/out/t.txt" (by rfl) (by rfl)
